import Mathlib

/-!
Verification of the hfjscli resilient file-transfer engine.

Shallow embedding of the TypeScript sources:
  - `src/client/hf-client.ts`   (HFClient: uploadFile, uploadFiles, withRetry,
    shouldNotRetry, streamBlobToFile, validateRepository, handleError, validation)
  - `src/utils/pattern-resolver.ts` (PatternResolver.resolvePattern)

I/O effects (filesystem existence checks, stat calls, remote hub RPC outcomes,
byte-stream outcomes) are supplied as explicit environment parameters; the
filesystem is assumed stable for the duration of one call, matching the
specification's "every file exists throughout the operation" framing.
Machine numbers in the source are JS numbers used only as small non-negative
integers (counts, indices, byte totals), embedded as `Nat`.
-/

namespace Hfjscli

/-- JS `String.prototype.includes` on the underlying character lists:
`hasInfix pat s` is true iff `pat` occurs contiguously in `s`. -/
def hasInfix (pat : List Char) : List Char → Bool
  | [] => pat.isEmpty
  | c :: t => pat.isPrefixOf (c :: t) || hasInfix pat t

/-- JS `msg.includes(pat)` for Lean strings. -/
def strIncludes (msg pat : String) : Bool :=
  hasInfix pat.data msg.data

/-- A thrown JavaScript `Error`, reduced to the only field the client's retry
and categorization logic inspects: `message`. -/
structure JsError where
  message : String
  deriving Repr, DecidableEq

/-- An ASCII whitespace character, as trimmed by JS `String.prototype.trim`
(the Unicode space classes the source could additionally trim never occur in
the inputs considered here). -/
def isJsWhitespace (c : Char) : Bool :=
  c == ' ' || c == '\t' || c == '\n' || c == '\r' || c == '\x0b' || c == '\x0c'

/-- JS `s.trim()`: remove leading and trailing whitespace. -/
def jsTrim (s : String) : String :=
  ⟨((s.data.dropWhile isJsWhitespace).reverse.dropWhile isJsWhitespace).reverse⟩

/-- JS `a || b` for strings (falls through on the empty string, which is falsy). -/
def jsOrString (a b : String) : String :=
  if a = "" then b else a

/-- Configuration for retry logic (hf-client.ts, `RetryConfig`). -/
structure RetryConfig where
  maxRetries : Nat
  baseDelay : Nat
  maxDelay : Nat
  deriving Repr, DecidableEq

/-- Default retry configuration (hf-client.ts, `DEFAULT_RETRY_CONFIG`). -/
def DEFAULT_RETRY_CONFIG : RetryConfig :=
  { maxRetries := 3, baseDelay := 1000, maxDelay := 10000 }

/-- `HFClient.shouldNotRetry`: an error is terminal (never retried) iff its
message contains "401", "403", "400", "422" or "404". -/
def shouldNotRetry (error : JsError) : Bool :=
  (strIncludes error.message "401" || strIncludes error.message "403") ||
  (strIncludes error.message "400" || strIncludes error.message "422") ||
  strIncludes error.message "404"

/-- The retry loop of `HFClient.withRetry`, with the loop counter made
explicit: `attempt` is the current 0-indexed attempt and `remaining` is
`maxRetries - attempt` (so `remaining = 0` exactly when `attempt === maxRetries`).
The operation's outcome on attempt `n` is `op n`.  Returns the propagated
result together with the number of times the operation was invoked.
Backoff delays (`sleep`) only pause execution and are not modelled. -/
def withRetryGo {T : Type} (op : Nat → Except JsError T) (attempt remaining : Nat) :
    Except JsError T × Nat :=
  match op attempt with
  | .ok v => (.ok v, 1)
  | .error e =>
    if shouldNotRetry e then (.error e, 1)
    else
      match remaining with
      | 0 => (.error e, 1)
      | r + 1 =>
        let p := withRetryGo op (attempt + 1) r
        (p.1, p.2 + 1)

/-- `HFClient.withRetry`: run `op` for attempts `0 .. maxRetries`. -/
def withRetry {T : Type} (op : Nat → Except JsError T) (config : RetryConfig) :
    Except JsError T × Nat :=
  withRetryGo op 0 config.maxRetries

/-- Outcome of piping the remote byte stream to disk in
`HFClient.streamBlobToFile`: either the pipeline completes having written
`bytes` bytes, or it errors after partially writing `bytes` bytes. -/
inductive StreamOutcome where
  | success (bytes : Nat)
  | errorAfter (bytes : Nat) (error : JsError)
  deriving Repr, DecidableEq

/-- `HFClient.streamBlobToFile`, acting on the filesystem abstracted as the
set of existing paths (`String → Bool`).  `fs.createWriteStream(localPath)`
creates the destination file; on success the byte total is returned; on a
pipeline error the partial file is removed with `fs.unlink(localPath)`
(cleanup errors are ignored) and the error is rethrown. -/
def streamBlobToFile (fs0 : String → Bool) (localPath : String)
    (stream : StreamOutcome) : Except JsError Nat × (String → Bool) :=
  let fs1 : String → Bool := fun p => p == localPath || fs0 p
  match stream with
  | .success totalBytes => (.ok totalBytes, fs1)
  | .errorAfter _ error =>
      let fs2 : String → Bool := fun p => if p == localPath then false else fs1 p
      (.error error, fs2)

/-- `HFClient.validateRepository`: probe the repository by fetching the first
entry of the remote file listing under the retry wrapper; the per-attempt
outcome of the probe is `probe n`.  `try { ...; return true } catch { return false }`. -/
def validateRepository (probe : Nat → Except JsError Unit) (config : RetryConfig) :
    Bool :=
  match (withRetry probe config).1 with
  | .ok _ => true
  | .error _ => false

/-- A file matched by the pattern resolver (pattern-resolver.ts, `ResolvedFile`). -/
structure ResolvedFile where
  path : String
  size : Nat
  fileName : String
  deriving Repr, DecidableEq

/-- Aggregate result of a pattern resolution (pattern-resolver.ts,
`PatternResolution`). -/
structure PatternResolution where
  totalFiles : Nat
  totalSize : Nat
  files : List ResolvedFile
  deriving Repr, DecidableEq

/-- `FileSystemUtils.getFileName` (src/unnamed/part_002): `path.basename(filePath)`.
Node's posix `basename`: trailing separators are stripped, then the last path
component is returned; the empty path and a path of only separators give "".
`HFClient.uploadFile` calls `path.basename` directly with the same semantics. -/
def getFileName (filePath : String) : String :=
  let rest := filePath.data.reverse.dropWhile (fun c => c == '/')
  if rest.isEmpty then ""
  else ⟨(rest.takeWhile (fun c => !(c == '/'))).reverse⟩

/-- The message of the error thrown when a pattern matches more than
`maxFiles` files (pattern-resolver.ts, `resolvePattern`). -/
def tooBroadErrorMessage (matched maxFiles : Nat) : String :=
  "Pattern matched " ++ toString matched ++
  " files, which exceeds the maximum limit of " ++ toString maxFiles ++
  ". Please use a more specific pattern."

/-- The message of the wrapper error produced by `resolvePattern`'s catch
block around any failure of its body. -/
def resolveFailedMessage (pattern msg : String) : String :=
  "Failed to resolve pattern \"" ++ pattern ++ "\": " ++ msg

/-- The per-match loop of `resolvePattern`: stat each matched path
(`FileSystemUtils.getFileSize`, outcome supplied by `statSize`), collecting a
`ResolvedFile` and accumulating `totalSize` on success, and skipping the file
(with a warning) when the stat fails. -/
def collectResolvedFiles (statSize : String → Except JsError Nat) :
    List String → List ResolvedFile × Nat
  | [] => ([], 0)
  | p :: rest =>
    match statSize p with
    | .ok size =>
      let c := collectResolvedFiles statSize rest
      (⟨p, size, getFileName p⟩ :: c.1, size + c.2)
    | .error _ => collectResolvedFiles statSize rest

/-- `PatternResolver.resolvePattern`, with the fast-glob match list supplied
as `matchedPaths` and the stat outcomes as `statSize`.  The source's default
for `maxFiles` is 10000.  If more than `maxFiles` paths matched, the body
throws the pattern-too-broad error; otherwise the matches are stat'd and
aggregated.  The catch block rewraps any error of the body in a
"Failed to resolve pattern" error. -/
def resolvePattern (pattern : String) (matchedPaths : List String)
    (statSize : String → Except JsError Nat) (maxFiles : Nat) :
    Except JsError PatternResolution :=
  let body : Except JsError PatternResolution :=
    if matchedPaths.length > maxFiles then
      .error ⟨tooBroadErrorMessage matchedPaths.length maxFiles⟩
    else
      let c := collectResolvedFiles statSize matchedPaths
      .ok { totalFiles := c.1.length, totalSize := c.2, files := c.1 }
  match body with
  | .ok r => .ok r
  | .error e => .error ⟨resolveFailedMessage pattern e.message⟩

/-- Error categories of the CLI (types/index.ts, `ErrorType`). -/
inductive ErrorType where
  | AUTHENTICATION_ERROR
  | NETWORK_ERROR
  | FILE_NOT_FOUND
  | PERMISSION_ERROR
  | VALIDATION_ERROR
  | RATE_LIMIT_ERROR
  deriving Repr, DecidableEq

/-- A categorized CLI error (types/index.ts, `CLIError`). -/
structure CLIError where
  type : ErrorType
  message : String
  suggestions : List String
  deriving Repr, DecidableEq

/-- `HFClient.createError`. -/
def createError (type : ErrorType) (message : String) (suggestion : Option String) :
    CLIError :=
  { type := type
    message := message
    suggestions := match suggestion with | some s => [s] | none => [] }

/-- A value thrown inside the client: either a structured `CLIError` (which
carries a `type` field) or a plain JavaScript error. -/
inductive Thrown where
  | cli (e : CLIError)
  | js (e : JsError)
  deriving Repr, DecidableEq

/-- `HFClient.handleError`: pass a structured error through unchanged
(`"type" in error`), otherwise categorize by message content. -/
def handleError (error : Thrown) : CLIError :=
  match error with
  | .cli e => e
  | .js e =>
    let message := e.message
    if strIncludes message "401" || strIncludes message "403" ||
        strIncludes message "authentication" then
      createError .AUTHENTICATION_ERROR "Authentication failed"
        (some "Please check your Hugging Face token and ensure it has the necessary permissions.")
    else if strIncludes message "404" then
      createError .FILE_NOT_FOUND "Repository or file not found"
        (some "Please check the repository ID and file path are correct.")
    else if strIncludes message "429" || strIncludes message "rate limit" then
      createError .RATE_LIMIT_ERROR "Rate limit exceeded"
        (some "Please wait a moment before trying again.")
    else if strIncludes message "ENOENT" || strIncludes message "EACCES" then
      createError .PERMISSION_ERROR "File system permission error"
        (some "Please check file permissions and ensure the directory is writable.")
    else
      createError .NETWORK_ERROR ("Network or API error: " ++ message)
        (some "Please check your internet connection and try again.")

/-- `HFClient.isValidRepoType`. -/
def isValidRepoType (repoType : String) : Bool :=
  ["model", "dataset", "space"].contains repoType

/-- Options of a single-file upload (types/index.ts, `UploadOptions`),
restricted to the fields the client reads. -/
structure UploadOptions where
  repoId : String
  filePath : String
  repoType : String
  message : Option String
  token : Option String
  deriving Repr, DecidableEq

/-- The `commit` object of a remote upload response (`@huggingface/hub`);
only its `oid` is read. -/
structure Commit where
  oid : String
  deriving Repr, DecidableEq

/-- A successful remote upload response, whose `commit` field may be absent. -/
structure CommitOutput where
  commit : Option Commit
  deriving Repr, DecidableEq

/-- Result of a single-file upload (types/index.ts, `UploadResult`);
optional fields are absent exactly when the source leaves them unset. -/
structure UploadResult where
  success : Bool
  fileUrl : Option String
  commitSha : Option String
  error : Option String
  deriving Repr, DecidableEq

/-- `HFClient.validateUploadInputs`: `none` when the options pass validation,
otherwise the thrown `ValidationError`. -/
def validateUploadInputs (options : UploadOptions) : Option CLIError :=
  if jsTrim options.repoId == "" then
    some (createError .VALIDATION_ERROR "Repository ID is required"
      (some "Please provide a valid repository ID in the format \"username/repo-name\""))
  else if jsTrim options.filePath == "" then
    some (createError .VALIDATION_ERROR "File path is required"
      (some "Please provide a valid file path to upload"))
  else if !(isValidRepoType options.repoType) then
    some (createError .VALIDATION_ERROR
      ("Invalid repository type: " ++ options.repoType)
      (some "Repository type must be one of: model, dataset, space"))
  else
    none

/-- `HFClient.uploadFile`: validate, check local existence (`pathExists`),
then perform the remote upload under `withRetry`; `remoteOp n` is the
outcome of the remote call on attempt `n`.  On success the `fileUrl` is
computed from repoId and basename, and `commitSha` is the remote commit oid
or the sentinel "unknown" when the response omits it (JS `||` fallback). -/
def uploadFile (options : UploadOptions) (pathExists : Bool)
    (remoteOp : Nat → Except JsError CommitOutput) (config : RetryConfig) :
    UploadResult :=
  match validateUploadInputs options with
  | some e =>
    { success := false, fileUrl := none, commitSha := none
      error := some (handleError (.cli e)).message }
  | none =>
    if !pathExists then
      { success := false, fileUrl := none, commitSha := none
        error := some (handleError (.cli (createError .FILE_NOT_FOUND
          ("Local file not found: " ++ options.filePath)
          (some "Please check the file path and ensure the file exists.")))).message }
    else
      match (withRetry remoteOp config).1 with
      | .ok result =>
        { success := true
          fileUrl := some ("https://huggingface.co/" ++ options.repoId ++
            "/blob/main/" ++ getFileName options.filePath)
          commitSha := some (match result.commit with
            | none => "unknown"
            | some c => jsOrString c.oid "unknown")
          error := none }
      | .error e =>
        { success := false, fileUrl := none, commitSha := none
          error := some (handleError (.js e)).message }

/-- Options of a multi-file upload (types/index.ts, `MultiUploadOptions`),
restricted to the fields the client reads. -/
structure MultiUploadOptions where
  repoId : String
  filePaths : List String
  repoType : String
  message : Option String
  token : Option String
  deriving Repr, DecidableEq

/-- Result of a multi-file upload (types/index.ts, `MultiUploadResult`).
`commitSha` is present exactly when the source spreads it into the object;
`failedFiles` is the accumulated list (spread into the object only when
nonempty). -/
structure MultiUploadResult where
  success : Bool
  filesUploaded : Nat
  totalFiles : Nat
  commitSha : Option String
  failedFiles : List String
  error : Option String
  deriving Repr, DecidableEq

/-- `HFClient.validateMultiUploadInputs`: `none` when the options pass
validation, otherwise the thrown `ValidationError`. -/
def validateMultiUploadInputs (options : MultiUploadOptions) : Option CLIError :=
  if jsTrim options.repoId == "" then
    some (createError .VALIDATION_ERROR "Repository ID is required"
      (some "Please provide a valid repository ID in the format \"username/repo-name\""))
  else if options.filePaths.isEmpty then
    some (createError .VALIDATION_ERROR "At least one file path is required"
      (some "Please provide valid file paths to upload"))
  else if options.filePaths.any (fun p => jsTrim p == "") then
    some (createError .VALIDATION_ERROR "File path cannot be empty"
      (some "Please provide valid file paths to upload"))
  else if !(isValidRepoType options.repoType) then
    some (createError .VALIDATION_ERROR
      ("Invalid repository type: " ++ options.repoType)
      (some "Repository type must be one of: model, dataset, space"))
  else
    none

/-- Environment of one `uploadFiles` run: which local paths exist
(`fs.pathExists`, stable for the duration of the run) and the outcome of the
remote `uploadFiles` RPC for batch `batchIndex` on retry attempt `n`
(`remote batchIndex n`). -/
structure MultiUploadEnv where
  pathExists : String → Bool
  remote : Nat → Nat → Except JsError CommitOutput

/-- The batch of paths handled at `batchIndex` in `HFClient.uploadFiles`:
`filePaths.slice(batchIndex * 1000, min((batchIndex + 1) * 1000, totalFiles))`
with the source's hard-coded `batchSize = 1000`. -/
def batchAt (filePaths : List String) (batchIndex : Nat) : List String :=
  (filePaths.drop (batchIndex * 1000)).take 1000

/-- `Math.ceil(totalFiles / batchSize)` with `batchSize = 1000`. -/
def totalBatchesFor (totalFiles : Nat) : Nat :=
  (totalFiles + 999) / 1000

/-- Mutable loop state of `HFClient.uploadFiles`, together with the trace of
remote `uploadMany` calls actually issued (`calls` records the payload of each
call, in order). -/
structure BatchLoopState where
  filesProcessed : Nat
  failedFiles : List String
  commitSha : String
  calls : List (List String)
  deriving Repr, DecidableEq

/-- One iteration of the batch loop of `HFClient.uploadFiles`: check each
path of the batch (a missing path is pushed onto `failedFiles` and excluded
from the payload); skip the remote call when no valid files remain; otherwise
issue the batch upload under `withRetry` — on success accumulate the count
and the commit oid (JS `||` keeps the previous sha when the oid is absent or
empty), on failure push the whole original batch onto `failedFiles`. -/
def uploadBatchStep (env : MultiUploadEnv) (config : RetryConfig)
    (filePaths : List String) (st : BatchLoopState) (batchIndex : Nat) :
    BatchLoopState :=
  let batchFiles := batchAt filePaths batchIndex
  let prepFailed := batchFiles.filter (fun f => !(env.pathExists f))
  let validFiles := batchFiles.filter (fun f => env.pathExists f)
  let st1 : BatchLoopState := { st with failedFiles := st.failedFiles ++ prepFailed }
  if validFiles.isEmpty then st1
  else
    match (withRetry (env.remote batchIndex) config).1 with
    | .ok result =>
      { st1 with
        commitSha := match result.commit with
          | none => st1.commitSha
          | some c => jsOrString c.oid st1.commitSha
        filesProcessed := st1.filesProcessed + validFiles.length
        calls := st1.calls ++ [validFiles] }
    | .error _ =>
      { st1 with
        failedFiles := st1.failedFiles ++ batchFiles
        calls := st1.calls ++ [validFiles] }

/-- The batch loop of `HFClient.uploadFiles`
(`for (let batchIndex = 0; batchIndex < totalBatches; batchIndex++)`). -/
def uploadFilesLoop (env : MultiUploadEnv) (config : RetryConfig)
    (filePaths : List String) : BatchLoopState :=
  (List.range (totalBatchesFor filePaths.length)).foldl
    (uploadBatchStep env config filePaths) ⟨0, [], "unknown", []⟩

/-- `HFClient.uploadFiles`: validate, then run the batch loop and aggregate
the result (`success = filesProcessed > 0`; `commitSha` spread only when
successful and a real oid was seen; `failedFiles` spread only when nonempty,
kept here as the accumulated list). -/
def uploadFiles (options : MultiUploadOptions) (env : MultiUploadEnv)
    (config : RetryConfig) : MultiUploadResult :=
  match validateMultiUploadInputs options with
  | some e =>
    { success := false
      filesUploaded := 0
      totalFiles := options.filePaths.length
      commitSha := none
      failedFiles := options.filePaths
      error := some (handleError (.cli e)).message }
  | none =>
    let st := uploadFilesLoop env config options.filePaths
    let success := decide (st.filesProcessed > 0)
    { success := success
      filesUploaded := st.filesProcessed
      totalFiles := options.filePaths.length
      commitSha := if success && st.commitSha != "unknown" then some st.commitSha else none
      failedFiles := st.failedFiles
      error := none }

/-- Whether the remote `uploadMany` call for batch `batchIndex` fails even
after the retry wrapper (used to name the failed batches in the theorems). -/
def remoteFailed (env : MultiUploadEnv) (config : RetryConfig) (batchIndex : Nat) :
    Bool :=
  match (withRetry (env.remote batchIndex) config).1 with
  | .ok _ => false
  | .error _ => true

/-- If every attempt fails with a non-terminal error, the loop performs
exactly `remaining + 1` invocations from any starting attempt and propagates
the error of the last attempt. -/
lemma withRetryGo_all_fail {T : Type} (op : Nat → Except JsError T)
    (e : Nat → JsError)
    (hop : ∀ n, op n = .error (e n))
    (hre : ∀ n, shouldNotRetry (e n) = false) :
    ∀ remaining attempt,
      withRetryGo op attempt remaining = (.error (e (attempt + remaining)), remaining + 1) := by
  intro remaining
  induction remaining with
  | zero =>
    intro attempt
    rw [withRetryGo, hop attempt]
    simp [hre attempt]
  | succ r ih =>
    intro attempt
    rw [withRetryGo, hop attempt]
    simp only [hre attempt, Bool.false_eq_true, if_false]
    rw [ih (attempt + 1)]
    have hn : attempt + 1 + r = attempt + (r + 1) := by omega
    rw [hn]

/-- If every attempt fails, the loop propagates an error (it never converts a
failing run into a success). -/
lemma withRetryGo_isError_of_all_fail {T : Type} (op : Nat → Except JsError T)
    (h : ∀ n, ∃ er, op n = .error er) :
    ∀ remaining attempt, ∃ er, (withRetryGo op attempt remaining).1 = .error er := by
  intro remaining
  induction remaining with
  | zero =>
    intro attempt
    obtain ⟨er, her⟩ := h attempt
    rw [withRetryGo, her]
    by_cases hs : shouldNotRetry er <;> simp [hs]
  | succ r ih =>
    intro attempt
    obtain ⟨er, her⟩ := h attempt
    rw [withRetryGo, her]
    by_cases hs : shouldNotRetry er
    · simp [hs]
    · simpa [hs] using ih (attempt + 1)

/-- C3: a retryable operation that fails on every attempt is invoked exactly
`maxRetries + 1` times by `withRetry`, propagating the last attempt's error;
with the default configuration (`maxRetries = 3`) it is attempted exactly 4
times. -/
theorem retry_exhausts_maxRetries_plus_one {T : Type}
    (op : Nat → Except JsError T) (e : Nat → JsError) (config : RetryConfig)
    (hop : ∀ n, op n = .error (e n))
    (hre : ∀ n, shouldNotRetry (e n) = false) :
    (withRetry op config).2 = config.maxRetries + 1 ∧
    (withRetry op config).1 = .error (e config.maxRetries) ∧
    (withRetry op DEFAULT_RETRY_CONFIG).2 = 4 := by
  have h := withRetryGo_all_fail op e hop hre
  refine ⟨?_, ?_, ?_⟩ <;> simp [withRetry, h, DEFAULT_RETRY_CONFIG]

/-- C3 witness: a permanently failing network-style error ("ECONNRESET") under
the default configuration is attempted exactly 4 times. -/
theorem retry_exhausts_witness :
    (withRetry (fun _ : Nat => (Except.error ⟨"ECONNRESET"⟩ : Except JsError Unit))
      DEFAULT_RETRY_CONFIG).2 = 4 := by
  refine (retry_exhausts_maxRetries_plus_one (fun _ => .error ⟨"ECONNRESET"⟩)
    (fun _ => ⟨"ECONNRESET"⟩) DEFAULT_RETRY_CONFIG (fun _ => rfl)
    (fun _ => ?_)).2.2
  show shouldNotRetry (⟨"ECONNRESET"⟩ : JsError) = false
  decide

/-- C4: an operation failing with a terminal error (message carrying "401",
"403", "400", "422" or "404") is invoked exactly once by `withRetry`, for any
configuration, and the propagated error is the original error value unchanged. -/
theorem terminal_error_single_attempt {T : Type}
    (op : Nat → Except JsError T) (e : JsError) (config : RetryConfig)
    (hop : op 0 = .error e)
    (hterm : strIncludes e.message "401" = true ∨ strIncludes e.message "403" = true ∨
             strIncludes e.message "400" = true ∨ strIncludes e.message "422" = true ∨
             strIncludes e.message "404" = true) :
    withRetry op config = (.error e, 1) := by
  have hsnr : shouldNotRetry e = true := by
    unfold shouldNotRetry
    rcases hterm with h | h | h | h | h <;> simp [h]
  unfold withRetry
  rw [withRetryGo, hop]
  simp [hsnr]

/-- C4 witness: an operation rejecting with "Unauthorized: 401" is attempted
once and the identical error value is propagated. -/
theorem terminal_error_witness :
    withRetry (fun _ : Nat => (Except.error ⟨"Unauthorized: 401"⟩ : Except JsError Unit))
      DEFAULT_RETRY_CONFIG = (.error ⟨"Unauthorized: 401"⟩, 1) :=
  terminal_error_single_attempt (fun _ => .error ⟨"Unauthorized: 401"⟩)
    ⟨"Unauthorized: 401"⟩ DEFAULT_RETRY_CONFIG rfl (Or.inl (by decide))

/-- C5: if the byte stream errors after partially writing to a destination
path that did not previously exist, the partial file is deleted before the
error propagates: the destination path does not exist after the call. -/
theorem download_cleanup_on_stream_error (fs0 : String → Bool) (localPath : String)
    (bytes : Nat) (e : JsError) (_hnew : fs0 localPath = false) :
    (streamBlobToFile fs0 localPath (.errorAfter bytes e)).1 = .error e ∧
    (streamBlobToFile fs0 localPath (.errorAfter bytes e)).2 localPath = false := by
  simp [streamBlobToFile]

/-- C5 witness: on an empty filesystem, a stream error after 5 bytes to
"model.bin" leaves "model.bin" nonexistent and propagates the error. -/
theorem download_cleanup_witness :
    (streamBlobToFile (fun _ => false) "model.bin"
        (.errorAfter 5 ⟨"stream reset"⟩)).1 = .error ⟨"stream reset"⟩ ∧
    (streamBlobToFile (fun _ => false) "model.bin"
        (.errorAfter 5 ⟨"stream reset"⟩)).2 "model.bin" = false :=
  download_cleanup_on_stream_error (fun _ => false) "model.bin" 5 ⟨"stream reset"⟩ rfl

/-- C9: `validateRepository` returns a boolean and never throws: if every
probe attempt rejects (network error, not-found, forbidden), the result is
`false`; if the probe completes, the result is `true`. -/
theorem validateRepository_boolean (probe : Nat → Except JsError Unit)
    (config : RetryConfig) :
    ((∀ n, ∃ er, probe n = .error er) → validateRepository probe config = false) ∧
    (probe 0 = .ok () → validateRepository probe config = true) := by
  constructor
  · intro h
    obtain ⟨er, her⟩ := withRetryGo_isError_of_all_fail probe h config.maxRetries 0
    unfold validateRepository withRetry
    rw [her]
  · intro h
    unfold validateRepository withRetry
    rw [withRetryGo, h]

/-- C9 witness: a repository whose listing call rejects with a 404 yields
`false`, not a thrown error. -/
theorem validateRepository_witness :
    validateRepository (fun _ => .error ⟨"404 Not Found"⟩) DEFAULT_RETRY_CONFIG = false :=
  (validateRepository_boolean (fun _ => .error ⟨"404 Not Found"⟩)
      DEFAULT_RETRY_CONFIG).1 (fun _ => ⟨⟨"404 Not Found"⟩, rfl⟩)

/-- Characterization of the stat loop: the collected files are exactly the
successfully stat'd matches in order, and the accumulated total is the sum of
their sizes. -/
lemma collectResolvedFiles_eq (statSize : String → Except JsError Nat)
    (paths : List String) :
    collectResolvedFiles statSize paths =
      (paths.filterMap (fun p =>
          match statSize p with
          | .ok size => some (⟨p, size, getFileName p⟩ : ResolvedFile)
          | .error _ => none),
       ((paths.filterMap (fun p =>
          match statSize p with
          | .ok size => some (⟨p, size, getFileName p⟩ : ResolvedFile)
          | .error _ => none)).map ResolvedFile.size).sum) := by
  induction paths with
  | nil => rfl
  | cons p rest ih =>
    cases hp : statSize p with
    | ok size => simp [collectResolvedFiles, hp, ih, List.filterMap_cons]
    | error e => simp [collectResolvedFiles, hp, ih, List.filterMap_cons]

/-- C6: a pattern whose match count exceeds `maxFiles` is fatal at the
resolver level: `resolvePattern` fails with the pattern-too-broad error
(rewrapped by the resolver's catch block). -/
theorem resolvePattern_too_broad (pattern : String) (matchedPaths : List String)
    (statSize : String → Except JsError Nat) (maxFiles : Nat)
    (h : matchedPaths.length > maxFiles) :
    resolvePattern pattern matchedPaths statSize maxFiles =
      .error ⟨resolveFailedMessage pattern
        (tooBroadErrorMessage matchedPaths.length maxFiles)⟩ := by
  simp [resolvePattern, h]

/-- C6 witness: 10001 matched paths against the default ceiling of 10000 make
the resolution fail with the pattern-too-broad error. -/
theorem resolvePattern_too_broad_witness :
    ((List.range 10001).map (fun n => toString n)).length > 10000 ∧
    resolvePattern "src/**" ((List.range 10001).map (fun n => toString n))
        (fun _ => .ok 1) 10000 =
      .error ⟨resolveFailedMessage "src/**"
        (tooBroadErrorMessage
          ((List.range 10001).map (fun n => toString n)).length 10000)⟩ := by
  have hlen : ((List.range 10001).map (fun n => toString n)).length > 10000 := by
    rw [List.length_map, List.length_range]
    omega
  exact ⟨hlen, resolvePattern_too_broad _ _ _ _ hlen⟩

/-- C7: when the match count is within the ceiling, `resolvePattern` returns
a resolution whose `totalFiles` is the number of collected files, whose
`totalSize` is the sum of their sizes, and whose file list consists exactly
of the successfully stat'd matches — a match whose stat fails is skipped
rather than failing the resolution. -/
theorem resolvePattern_totals (pattern : String) (matchedPaths : List String)
    (statSize : String → Except JsError Nat) (maxFiles : Nat)
    (h : matchedPaths.length ≤ maxFiles) :
    ∃ r, resolvePattern pattern matchedPaths statSize maxFiles = .ok r ∧
      r.totalFiles = r.files.length ∧
      r.totalSize = (r.files.map ResolvedFile.size).sum ∧
      r.files = matchedPaths.filterMap (fun p =>
          match statSize p with
          | .ok size => some ⟨p, size, getFileName p⟩
          | .error _ => none) := by
  have hng : ¬ matchedPaths.length > maxFiles := by omega
  refine ⟨⟨(collectResolvedFiles statSize matchedPaths).1.length,
           (collectResolvedFiles statSize matchedPaths).2,
           (collectResolvedFiles statSize matchedPaths).1⟩, ?_, ?_, ?_, ?_⟩ <;>
    simp [resolvePattern, hng, collectResolvedFiles_eq]

/-- C7 witness: matches "a.txt" (10 bytes), "b.txt" (20 bytes) and a
disappeared "gone.txt" yield totals 2 files / 30 bytes, skipping the failed
stat. -/
theorem resolvePattern_totals_witness :
    ∃ r, resolvePattern "*.txt" ["a.txt", "b.txt", "gone.txt"]
        (fun p => if p == "a.txt" then .ok 10
                  else if p == "b.txt" then .ok 20
                  else .error ⟨"ENOENT"⟩) 10000 = .ok r ∧
      r.totalFiles = r.files.length ∧
      r.totalSize = (r.files.map ResolvedFile.size).sum ∧
      r.files = ["a.txt", "b.txt", "gone.txt"].filterMap (fun p =>
          match (if p == "a.txt" then .ok 10
                 else if p == "b.txt" then .ok 20
                 else .error ⟨"ENOENT"⟩ : Except JsError Nat) with
          | .ok size => some ⟨p, size, getFileName p⟩
          | .error _ => none) :=
  resolvePattern_totals "*.txt" ["a.txt", "b.txt", "gone.txt"] _ 10000 (by decide)

/-- C8: when the remote upload succeeds but the response omits the commit
object, `uploadFile` reports success with the sentinel commitSha "unknown" —
it never fails solely because the commit id is missing. -/
theorem uploadFile_missing_commit_is_unknown (options : UploadOptions)
    (remoteOp : Nat → Except JsError CommitOutput) (config : RetryConfig)
    (hvalid : validateUploadInputs options = none)
    (hok : (withRetry remoteOp config).1 = .ok ⟨none⟩) :
    (uploadFile options true remoteOp config).success = true ∧
    (uploadFile options true remoteOp config).commitSha = some "unknown" := by
  simp [uploadFile, hvalid, hok]

/-- C8 witness: a concrete upload whose remote call returns no commit object
yields success with commitSha "unknown". -/
theorem uploadFile_missing_commit_witness :
    (uploadFile ⟨"user/repo", "model.bin", "model", none, none⟩ true
      (fun _ => .ok ⟨none⟩) DEFAULT_RETRY_CONFIG).success = true ∧
    (uploadFile ⟨"user/repo", "model.bin", "model", none, none⟩ true
      (fun _ => .ok ⟨none⟩) DEFAULT_RETRY_CONFIG).commitSha = some "unknown" :=
  uploadFile_missing_commit_is_unknown ⟨"user/repo", "model.bin", "model", none, none⟩
    (fun _ => .ok ⟨none⟩) DEFAULT_RETRY_CONFIG (by decide) rfl

lemma batchAt_succ (filePaths : List String) (i : Nat) :
    batchAt filePaths (i + 1) = batchAt (filePaths.drop 1000) i := by
  unfold batchAt
  rw [List.drop_drop]
  have h : 1000 + i * 1000 = (i + 1) * 1000 := by ring
  rw [h]

lemma totalBatchesFor_pos_succ (n : Nat) (h : 0 < n) :
    totalBatchesFor n = totalBatchesFor (n - 1000) + 1 := by
  unfold totalBatchesFor
  omega

/-- The batches of `uploadFiles` are a partition of the input paths into
consecutive chunks: concatenated in order they give back the input list. -/
lemma flatten_batches :
    ∀ (n : Nat) (filePaths : List String), filePaths.length = n →
      ((List.range (totalBatchesFor n)).map (batchAt filePaths)).flatten = filePaths := by
  intro n
  induction n using Nat.strong_induction_on with
  | _ n ih =>
    intro filePaths hn
    rcases Nat.eq_zero_or_pos n with h0 | hpos
    · subst h0
      have he : filePaths = [] := List.eq_nil_of_length_eq_zero hn
      subst he
      rfl
    · rw [totalBatchesFor_pos_succ n hpos, List.range_succ_eq_map]
      simp only [List.map_cons, List.map_map, List.flatten_cons]
      have h1 : (List.range (totalBatchesFor (n - 1000))).map (batchAt filePaths ∘ (· + 1)) =
          (List.range (totalBatchesFor (n - 1000))).map (batchAt (filePaths.drop 1000)) := by
        simp only [Function.comp_def, batchAt_succ]
      rw [h1, ih (n - 1000) (by omega) (filePaths.drop 1000)
        (by rw [List.length_drop, hn])]
      show (filePaths.drop (0 * 1000)).take 1000 ++ filePaths.drop 1000 = filePaths
      simp only [Nat.zero_mul, List.drop_zero]
      exact List.take_append_drop 1000 filePaths

/-- The batch sizes sum to the total number of input paths. -/
lemma sum_batch_lengths (filePaths : List String) :
    ((List.range (totalBatchesFor filePaths.length)).map
      (fun i => (batchAt filePaths i).length)).sum = filePaths.length := by
  have h := congrArg List.length (flatten_batches filePaths.length filePaths rfl)
  rw [List.length_flatten, List.map_map] at h
  simp only [Function.comp_def] at h
  exact h

lemma batchAt_length_le (filePaths : List String) (i : Nat) :
    (batchAt filePaths i).length ≤ 1000 := by
  simp only [batchAt, List.length_take]
  omega

lemma batchAt_mem_subset (filePaths : List String) (i : Nat) :
    ∀ f ∈ batchAt filePaths i, f ∈ filePaths := fun _ hf =>
  List.mem_of_mem_drop (List.mem_of_mem_take hf)

/-- Every batch index below the batch count selects a nonempty batch. -/
lemma batchAt_ne_nil (filePaths : List String) (i : Nat)
    (h : i < totalBatchesFor filePaths.length) : batchAt filePaths i ≠ [] := by
  unfold totalBatchesFor at h
  have hlt : i * 1000 < filePaths.length := by omega
  intro hcon
  have hlen := congrArg List.length hcon
  simp [batchAt, List.length_take, List.length_drop] at hlen
  omega

/-- Trace of the remote calls issued by the batch loop: one call per batch
whose filtered payload is nonempty, carrying exactly that payload. -/
lemma uploadFilesLoop_calls (env : MultiUploadEnv) (config : RetryConfig)
    (filePaths : List String) :
    ∀ (l : List Nat) (st : BatchLoopState),
      (l.foldl (uploadBatchStep env config filePaths) st).calls =
        st.calls ++
          (l.filter (fun i =>
              !((batchAt filePaths i).filter (fun f => env.pathExists f)).isEmpty)).map
            (fun i => (batchAt filePaths i).filter (fun f => env.pathExists f)) := by
  intro l
  induction l with
  | nil => intro st; simp
  | cons i rest ih =>
    intro st
    rw [List.foldl_cons, ih]
    by_cases hv : ((batchAt filePaths i).filter (fun f => env.pathExists f)).isEmpty
    · simp [uploadBatchStep, hv, List.filter_cons]
    · have hv' : ((batchAt filePaths i).filter (fun f => env.pathExists f)).isEmpty = false := by
        simpa using hv
      cases hr : (withRetry (env.remote i) config).1 with
      | ok v => simp [uploadBatchStep, hv', hr, List.filter_cons]
      | error er => simp [uploadBatchStep, hv', hr, List.filter_cons]

/-- Accounting invariant of the batch loop when every input path exists:
each batch contributes its full size either to `filesProcessed` (remote call
succeeded) or to `failedFiles` (remote call failed). -/
lemma uploadFilesLoop_accounting (env : MultiUploadEnv) (config : RetryConfig)
    (filePaths : List String)
    (hex : ∀ f ∈ filePaths, env.pathExists f = true) :
    ∀ (l : List Nat) (st : BatchLoopState),
      (l.foldl (uploadBatchStep env config filePaths) st).filesProcessed +
        (l.foldl (uploadBatchStep env config filePaths) st).failedFiles.length =
        st.filesProcessed + st.failedFiles.length +
          (l.map (fun i => (batchAt filePaths i).length)).sum := by
  intro l
  induction l with
  | nil => intro st; simp
  | cons i rest ih =>
    intro st
    rw [List.foldl_cons, ih]
    have hvb : (batchAt filePaths i).filter (fun f => env.pathExists f) =
        batchAt filePaths i :=
      List.filter_eq_self.mpr (fun f hf => hex f (batchAt_mem_subset filePaths i f hf))
    have hpf : (batchAt filePaths i).filter (fun f => !(env.pathExists f)) = [] := by
      rw [List.filter_eq_nil_iff]
      intro f hf
      simp [hex f (batchAt_mem_subset filePaths i f hf)]
    suffices hstep :
        (uploadBatchStep env config filePaths st i).filesProcessed +
          (uploadBatchStep env config filePaths st i).failedFiles.length =
          st.filesProcessed + st.failedFiles.length + (batchAt filePaths i).length by
      simp only [List.map_cons, List.sum_cons]
      omega
    by_cases hb : (batchAt filePaths i).isEmpty
    · have hbe : batchAt filePaths i = [] := List.isEmpty_iff.mp hb
      simp [uploadBatchStep, hbe]
    · have hb' : (batchAt filePaths i).isEmpty = false := by simpa using hb
      cases hr : (withRetry (env.remote i) config).1 with
      | ok v =>
        simp [uploadBatchStep, hvb, hpf, hb', hr]
        omega
      | error er =>
        simp [uploadBatchStep, hvb, hpf, hb', hr]
        omega

/-- Failed-files invariant of the batch loop when every input path exists:
`failedFiles` accumulates exactly the batches whose remote call failed, in
order. -/
lemma uploadFilesLoop_failed (env : MultiUploadEnv) (config : RetryConfig)
    (filePaths : List String)
    (hex : ∀ f ∈ filePaths, env.pathExists f = true) :
    ∀ (l : List Nat) (st : BatchLoopState),
      (l.foldl (uploadBatchStep env config filePaths) st).failedFiles =
        st.failedFiles ++
          ((l.filter (fun i => !(batchAt filePaths i).isEmpty &&
              remoteFailed env config i)).map (batchAt filePaths)).flatten := by
  intro l
  induction l with
  | nil => intro st; simp
  | cons i rest ih =>
    intro st
    rw [List.foldl_cons, ih]
    have hvb : (batchAt filePaths i).filter (fun f => env.pathExists f) =
        batchAt filePaths i :=
      List.filter_eq_self.mpr (fun f hf => hex f (batchAt_mem_subset filePaths i f hf))
    have hpf : (batchAt filePaths i).filter (fun f => !(env.pathExists f)) = [] := by
      rw [List.filter_eq_nil_iff]
      intro f hf
      simp [hex f (batchAt_mem_subset filePaths i f hf)]
    by_cases hb : (batchAt filePaths i).isEmpty
    · have hbe : batchAt filePaths i = [] := List.isEmpty_iff.mp hb
      simp [uploadBatchStep, hbe, List.filter_cons]
    · have hb' : (batchAt filePaths i).isEmpty = false := by simpa using hb
      cases hr : (withRetry (env.remote i) config).1 with
      | ok v =>
        simp [uploadBatchStep, hvb, hpf, hb', hr, List.filter_cons, remoteFailed]
      | error er =>
        simp [uploadBatchStep, hvb, hpf, hb', hr, List.filter_cons, remoteFailed]

/-- C1 counterexample: a single-path upload whose file does not exist issues
zero remote `uploadMany` calls, while ceil(N / 1000) = 1 — the claimed call
count "equals ceil(N / 1000)" fails as stated (the source skips the remote
call for a batch with no valid files). -/
theorem uploadFiles_call_count_counterexample :
    validateMultiUploadInputs
      ⟨"user/repo", ["missing.txt"], "model", none, none⟩ = none ∧
    (uploadFilesLoop ⟨fun _ => false, fun _ _ => .error ⟨"network down"⟩⟩
      DEFAULT_RETRY_CONFIG ["missing.txt"]).calls.length = 0 ∧
    totalBatchesFor (["missing.txt"] : List String).length = 1 ∧
    (uploadFilesLoop ⟨fun _ => false, fun _ _ => .error ⟨"network down"⟩⟩
        DEFAULT_RETRY_CONFIG ["missing.txt"]).calls.length ≠
      totalBatchesFor (["missing.txt"] : List String).length := by
  refine ⟨by decide, ?_, by decide, ?_⟩ <;> decide

/-- C1 (amended): for a validated `uploadFiles` run, the input paths are
partitioned into consecutive batches of at most 1000; the number of remote
`uploadMany` calls is the number of batches with at least one existing file —
at most ceil(N / 1000), with equality when every input file exists — and no
single remote call ever receives more than 1000 files. -/
theorem uploadFiles_batching (options : MultiUploadOptions)
    (env : MultiUploadEnv) (config : RetryConfig)
    (_hvalid : validateMultiUploadInputs options = none) :
    ((List.range (totalBatchesFor options.filePaths.length)).map
        (batchAt options.filePaths)).flatten = options.filePaths ∧
    (∀ i, (batchAt options.filePaths i).length ≤ 1000) ∧
    (∀ c ∈ (uploadFilesLoop env config options.filePaths).calls, c.length ≤ 1000) ∧
    (uploadFilesLoop env config options.filePaths).calls.length =
      ((List.range (totalBatchesFor options.filePaths.length)).filter
        (fun i => !((batchAt options.filePaths i).filter
          (fun f => env.pathExists f)).isEmpty)).length ∧
    (uploadFilesLoop env config options.filePaths).calls.length ≤
      totalBatchesFor options.filePaths.length ∧
    ((∀ f ∈ options.filePaths, env.pathExists f = true) →
      (uploadFilesLoop env config options.filePaths).calls.length =
        totalBatchesFor options.filePaths.length) := by
  have hcalls := uploadFilesLoop_calls env config options.filePaths
    (List.range (totalBatchesFor options.filePaths.length)) ⟨0, [], "unknown", []⟩
  refine ⟨flatten_batches options.filePaths.length options.filePaths rfl,
    fun i => batchAt_length_le options.filePaths i, ?_, ?_, ?_, ?_⟩
  · intro c hc
    rw [uploadFilesLoop, hcalls] at hc
    simp only [List.nil_append, List.mem_map, List.mem_filter] at hc
    obtain ⟨i, _, hci⟩ := hc
    calc c.length = ((batchAt options.filePaths i).filter
        (fun f => env.pathExists f)).length := by rw [hci]
      _ ≤ (batchAt options.filePaths i).length := List.length_filter_le _ _
      _ ≤ 1000 := batchAt_length_le options.filePaths i
  · rw [uploadFilesLoop, hcalls]
    simp only [List.nil_append, List.length_map]
  · rw [uploadFilesLoop, hcalls]
    simp only [List.nil_append, List.length_map]
    calc (((List.range (totalBatchesFor options.filePaths.length)).filter _).length)
        ≤ (List.range (totalBatchesFor options.filePaths.length)).length :=
          List.length_filter_le _ _
      _ = totalBatchesFor options.filePaths.length := List.length_range _
  · intro hex
    rw [uploadFilesLoop, hcalls]
    simp only [List.nil_append, List.length_map]
    have hfil : (List.range (totalBatchesFor options.filePaths.length)).filter
        (fun i => !((batchAt options.filePaths i).filter
          (fun f => env.pathExists f)).isEmpty) =
        List.range (totalBatchesFor options.filePaths.length) := by
      apply List.filter_eq_self.mpr
      intro i hi
      have hib : i < totalBatchesFor options.filePaths.length := List.mem_range.mp hi
      have hvb : (batchAt options.filePaths i).filter (fun f => env.pathExists f) =
          batchAt options.filePaths i :=
        List.filter_eq_self.mpr
          (fun f hf => hex f (batchAt_mem_subset options.filePaths i f hf))
      rw [hvb]
      simpa [List.isEmpty_iff] using batchAt_ne_nil options.filePaths i hib
    rw [hfil, List.length_range]

/-- C1 witness: two existing files under a succeeding remote yield exactly
ceil(2/1000) = 1 call of at most 1000 files. -/
theorem uploadFiles_batching_witness :
    (uploadFilesLoop ⟨fun _ => true, fun _ _ => .ok ⟨some ⟨"abc123"⟩⟩⟩
        DEFAULT_RETRY_CONFIG
        (⟨"user/repo", ["a.txt", "b.txt"], "model", none, none⟩ :
          MultiUploadOptions).filePaths).calls.length =
      totalBatchesFor (⟨"user/repo", ["a.txt", "b.txt"], "model", none, none⟩ :
        MultiUploadOptions).filePaths.length :=
  (uploadFiles_batching ⟨"user/repo", ["a.txt", "b.txt"], "model", none, none⟩
      ⟨fun _ => true, fun _ _ => .ok ⟨some ⟨"abc123"⟩⟩⟩ DEFAULT_RETRY_CONFIG
      (by decide)).2.2.2.2.2 (fun f _ => rfl)

/-- C2: for a validated `uploadFiles` run in which every input file exists,
`filesUploaded` plus the number of files in `failedFiles` equals `totalFiles`;
`failedFiles` consists exactly of the batches whose remote call failed; and
`success` holds iff `filesUploaded > 0`. -/
theorem uploadFiles_partial_failure_accounting (options : MultiUploadOptions)
    (env : MultiUploadEnv) (config : RetryConfig)
    (hvalid : validateMultiUploadInputs options = none)
    (hex : ∀ f ∈ options.filePaths, env.pathExists f = true) :
    (uploadFiles options env config).filesUploaded +
        (uploadFiles options env config).failedFiles.length =
      (uploadFiles options env config).totalFiles ∧
    (uploadFiles options env config).failedFiles =
      (((List.range (totalBatchesFor options.filePaths.length)).filter
          (fun i => !(batchAt options.filePaths i).isEmpty &&
            remoteFailed env config i)).map (batchAt options.filePaths)).flatten ∧
    ((uploadFiles options env config).success = true ↔
      0 < (uploadFiles options env config).filesUploaded) := by
  have hacc := uploadFilesLoop_accounting env config options.filePaths hex
    (List.range (totalBatchesFor options.filePaths.length)) ⟨0, [], "unknown", []⟩
  have hfail := uploadFilesLoop_failed env config options.filePaths hex
    (List.range (totalBatchesFor options.filePaths.length)) ⟨0, [], "unknown", []⟩
  have hsum := sum_batch_lengths options.filePaths
  refine ⟨?_, ?_, ?_⟩
  · simp only [uploadFiles, hvalid, uploadFilesLoop]
    rw [hsum] at hacc
    simpa using hacc
  · simp only [uploadFiles, hvalid, uploadFilesLoop]
    simpa using hfail
  · simp only [uploadFiles, hvalid, uploadFilesLoop]
    simp [decide_eq_true_iff]

/-- C2 witness: three existing files in one failing batch: 0 uploaded plus 3
failed files equals 3 total, and success is false. -/
theorem uploadFiles_accounting_witness :
    (uploadFiles ⟨"user/repo", ["a.txt", "b.txt", "c.txt"], "model", none, none⟩
        ⟨fun _ => true, fun _ _ => .error ⟨"503 unavailable"⟩⟩
        DEFAULT_RETRY_CONFIG).filesUploaded +
      (uploadFiles ⟨"user/repo", ["a.txt", "b.txt", "c.txt"], "model", none, none⟩
        ⟨fun _ => true, fun _ _ => .error ⟨"503 unavailable"⟩⟩
        DEFAULT_RETRY_CONFIG).failedFiles.length =
    (uploadFiles ⟨"user/repo", ["a.txt", "b.txt", "c.txt"], "model", none, none⟩
        ⟨fun _ => true, fun _ _ => .error ⟨"503 unavailable"⟩⟩
        DEFAULT_RETRY_CONFIG).totalFiles :=
  (uploadFiles_partial_failure_accounting
      ⟨"user/repo", ["a.txt", "b.txt", "c.txt"], "model", none, none⟩
      ⟨fun _ => true, fun _ _ => .error ⟨"503 unavailable"⟩⟩ DEFAULT_RETRY_CONFIG
      (by decide) (fun f _ => rfl)).1

/-- C10: a path failing the existence check is pushed onto `failedFiles`
during batch preparation, and when the batch's remote call subsequently
fails the entire original batch — including that same path — is appended
again: with input ["a.txt", "b.txt"] where only "b.txt" exists and the
remote call fails, `failedFiles` is ["a.txt", "a.txt", "b.txt"], containing
"a.txt" twice, and its length 3 exceeds totalFiles - filesUploaded = 2. -/
theorem uploadFiles_failedFiles_duplicates :
    (uploadFiles ⟨"user/repo", ["a.txt", "b.txt"], "model", none, none⟩
        ⟨fun f => f == "b.txt", fun _ _ => .error ⟨"500 Internal Server Error"⟩⟩
        DEFAULT_RETRY_CONFIG).failedFiles = ["a.txt", "a.txt", "b.txt"] ∧
    (uploadFiles ⟨"user/repo", ["a.txt", "b.txt"], "model", none, none⟩
        ⟨fun f => f == "b.txt", fun _ _ => .error ⟨"500 Internal Server Error"⟩⟩
        DEFAULT_RETRY_CONFIG).failedFiles.count "a.txt" = 2 ∧
    (uploadFiles ⟨"user/repo", ["a.txt", "b.txt"], "model", none, none⟩
          ⟨fun f => f == "b.txt", fun _ _ => .error ⟨"500 Internal Server Error"⟩⟩
          DEFAULT_RETRY_CONFIG).totalFiles -
        (uploadFiles ⟨"user/repo", ["a.txt", "b.txt"], "model", none, none⟩
          ⟨fun f => f == "b.txt", fun _ _ => .error ⟨"500 Internal Server Error"⟩⟩
          DEFAULT_RETRY_CONFIG).filesUploaded <
      (uploadFiles ⟨"user/repo", ["a.txt", "b.txt"], "model", none, none⟩
        ⟨fun f => f == "b.txt", fun _ _ => .error ⟨"500 Internal Server Error"⟩⟩
        DEFAULT_RETRY_CONFIG).failedFiles.length := by
  refine ⟨?_, ?_, ?_⟩ <;> decide

end Hfjscli
